import Mathlib

/-!
Verification of the campaign metrics / earnings / payment reconciliation
pipeline of the sketch-music-server repository.

The JavaScript sources are shallowly embedded: JS numbers are modelled as
rationals (`ℚ`), optional / nullable document fields as `Option`, Firestore
documents as Lean structures, and the asynchronous external services
(TikTok metadata API, PayPal payouts API, user-document reads) as explicit
oracle functions passed to the embedded operations.  Fields that are pure
presentation data (titles, descriptions, timestamps) are projected away.
-/

namespace SketchMusic

/-- A submission: one element of the `videos` array stored on a campaign
document (created by `FieldValue.arrayUnion(submissionData)` in the bot's
submit flow, refreshed in place by `updateCampaignMetrics`). -/
structure Video where
  id : String := ""
  url : String := ""
  author_id : String := ""
  status : String := "pending"
  hasBeenPaid : Bool := false
  views : ℚ := 0
  shares : ℚ := 0
  comments : ℚ := 0
  likes : ℚ := 0
  earnings : ℚ := 0
  musicId : String := ""
  soundIdMatch : Bool := false
deriving DecidableEq

/-- A campaign document.  `budget`, `maxSubmissions` and
`maxCreatorEarningsPerPost` are optional fields (`none` models
absent/null).  JS truthiness of a present-but-zero value is handled at the
use sites, exactly as the source checks it. -/
structure Campaign where
  id : String := ""
  ratePerMillion : ℚ := 0
  maxCreatorEarningsPerPost : Option ℚ := none
  budget : Option ℚ := none
  budgetUsed : ℚ := 0
  maxSubmissions : Option ℕ := none
  isComplete : Bool := false
  soundId : Option String := none
  views : ℚ := 0
  shares : ℚ := 0
  comments : ℚ := 0
  likes : ℚ := 0
  videos : List Video := []
deriving DecidableEq

/-- Model of `Number(x.toFixed(2))` on rationals: the ECMAScript `toFixed`
algorithm picks the integer `n` minimising `|n / 100 - x|`, taking the
larger `n` on a tie, i.e. `⌊100 * x + 1/2⌋ / 100`. -/
def toFixed2 (x : ℚ) : ℚ := ((⌊x * 100 + 1 / 2⌋ : ℤ) : ℚ) / 100

/-- Rounding half-up to two decimal places as the specification words it
(`round2`); kept separate from `toFixed2`, which models the source's
mechanism, so the two can be compared. -/
def round2 (x : ℚ) : ℚ := ((⌊100 * x + 1 / 2⌋ : ℤ) : ℚ) / 100

/-- helper.js `calculateEarnings(campaign, views)`.

The JS guards `!campaign`, `typeof views !== 'number'`, `isNaN(views)` and
`isNaN(rate)` return 0; those degenerate inputs are outside this rational
model (a `Campaign` is always present and `ℚ` has no NaN), so only the
arithmetic path remains.  Note the cap guard is
`campaign.maxCreatorEarningsPerPost && amount > campaign.maxCreatorEarningsPerPost`:
a present cap equal to 0 is falsy and therefore does not cap. -/
def calculateEarnings (campaign : Campaign) (views : ℚ) : ℚ :=
  let amount := toFixed2 (campaign.ratePerMillion / 1000000 * views)
  match campaign.maxCreatorEarningsPerPost with
  | some cap => if cap ≠ 0 ∧ cap < amount then cap else amount
  | none => amount

/-- helper.js `checkCampaignCompletionCriteria(campaign)`.  The source
guards are `campaign.budget && campaign.budgetUsed >= campaign.budget` and
`campaign.maxSubmissions && campaign.videos?.length >= campaign.maxSubmissions`;
a present-but-zero `budget` / `maxSubmissions` is falsy. -/
def checkCampaignCompletionCriteria (campaign : Campaign) : Bool :=
  (match campaign.budget with
   | some b => decide (b ≠ 0) && decide (b ≤ campaign.budgetUsed)
   | none => false) ||
  (match campaign.maxSubmissions with
   | some m => decide (m ≠ 0) && decide (m ≤ campaign.videos.length)
   | none => false)

/-- Completion predicate as the specification words it: "True if `budget`
is set and `budgetUsed >= budget`. True if `maxSubmissions` is set and
`len(videos) >= maxSubmissions`."  Used only to compare against the
source's `checkCampaignCompletionCriteria`. -/
def specCompletionCriteria (campaign : Campaign) : Prop :=
  (∃ b, campaign.budget = some b ∧ b ≤ campaign.budgetUsed) ∨
  (∃ m, campaign.maxSubmissions = some m ∧ m ≤ campaign.videos.length)

/-- Campaign used by the cap-enforcement scenario: `ratePerMillion = 1000`,
`maxCreatorEarningsPerPost = 50`. -/
def campCapEx : Campaign :=
  { ratePerMillion := 1000, maxCreatorEarningsPerPost := some 50 }

/-- Campaign with a present-but-zero cap. -/
def campZeroCap : Campaign :=
  { ratePerMillion := 1000, maxCreatorEarningsPerPost := some 0 }

/-- Campaign with rate 1 USD per view (ratePerMillion = 1000000), no cap. -/
def campUnitRate : Campaign := { ratePerMillion := 1000000 }

/-- Campaign whose `budget` field is present with value 0. -/
def campZeroBudget : Campaign := { budget := some 0, budgetUsed := 0 }

/-- Normalized engagement record returned by `getTikTokVideoData` (fields
the metrics pass consumes; presentation strings omitted). -/
structure TikTokMetrics where
  views : ℚ := 0
  shares : ℚ := 0
  comments : ℚ := 0
  likes : ℚ := 0
  musicId : String := ""
deriving DecidableEq

/-- One entry of the `results` list returned by `updateCampaignMetrics`.
The source entries carry status-specific keys (`reason`, `message`,
`error`, `metrics`, ...); here the status string plus one informational
string are kept.  The text of a caught exception's `error.message` is not
modelled: every fetch failure is rendered as `"fetch failed"`. -/
structure CampaignResult where
  campaignId : String
  status : String
  info : String
deriving DecidableEq

/-- The document update written for one campaign by `updateCampaignMetrics`.
The zero-videos branch writes only the aggregate counters (no `isComplete`
and no `videos` key), hence those two are optional.  `lastUpdated` is a
wall-clock timestamp and is not modelled. -/
structure CampaignUpdate where
  views : ℚ
  shares : ℚ
  comments : ℚ
  likes : ℚ
  budgetUsed : ℚ
  isComplete : Option Bool
  videos : Option (List Video)
deriving DecidableEq

/-- JS `Math.round`: round half toward positive infinity. -/
def mathRound (x : ℚ) : ℤ := ⌊x + 1 / 2⌋

/-- `Promise.all` over `getTikTokVideoData(video.url)` for every video of a
campaign: all fetches must succeed, a single failure rejects the whole
batch for that campaign. -/
def fetchAll (fetch : String → Option TikTokMetrics) : List Video → Option (List TikTokMetrics)
  | [] => some []
  | v :: vs =>
    match fetch v.url, fetchAll fetch vs with
    | some m, some ms => some (m :: ms)
    | _, _ => none

/-- The per-video refresh inside `updateCampaignMetrics`: spread the stored
video and overwrite the metric fields from the fresh fetch, recomputing
`earnings` from the owning campaign's rate/cap and the fresh view count. -/
def refreshVideo (campaign : Campaign) (v : Video) (m : TikTokMetrics) : Video :=
  { v with
    soundIdMatch := match campaign.soundId with
      | some s => m.musicId = s
      | none => false,
    views := m.views,
    shares := m.shares,
    comments := m.comments,
    likes := m.likes,
    musicId := m.musicId,
    earnings := calculateEarnings campaign m.views }

/-- The body of the per-campaign loop of helper.js `updateCampaignMetrics`:
returns the `results` entry for this campaign together with the document
update to persist, if any (`none` when the campaign is skipped or its
metadata fetch failed). -/
def processCampaign (fetch : String → Option TikTokMetrics) (c : Campaign) :
    CampaignResult × Option CampaignUpdate :=
  if c.isComplete then
    (⟨c.id, "skipped", "Campaign already complete"⟩, none)
  else if c.videos.isEmpty then
    (⟨c.id, "success", "No videos, metrics reset to 0"⟩,
     some ⟨0, 0, 0, 0, 0, none, none⟩)
  else
    match fetchAll fetch c.videos with
    | none => (⟨c.id, "error", "fetch failed"⟩, none)
    | some ms =>
      let updatedVideos := List.zipWith (refreshVideo c) c.videos ms
      let totalViews := (updatedVideos.map Video.views).sum
      let totalShares := (updatedVideos.map Video.shares).sum
      let totalComments := (updatedVideos.map Video.comments).sum
      let totalLikes := (updatedVideos.map Video.likes).sum
      let budgetUsed : ℚ := ((mathRound (totalViews / 1000000 * c.ratePerMillion) : ℤ) : ℚ)
      let completionStatus := checkCampaignCompletionCriteria
        { c with budgetUsed := budgetUsed, videos := updatedVideos }
      (⟨c.id, "success", "updated"⟩,
       some ⟨totalViews, totalShares, totalComments, totalLikes, budgetUsed,
             some completionStatus, some updatedVideos⟩)

/-- helper.js `updateCampaignMetrics` over an already-read campaign
snapshot: one `results` entry per campaign, plus the list of document
writes (campaign id paired with the update) issued against the store. -/
def updateCampaignMetrics (fetch : String → Option TikTokMetrics)
    (campaigns : List Campaign) :
    List CampaignResult × List (String × CampaignUpdate) :=
  (campaigns.map fun c => (processCampaign fetch c).1,
   campaigns.filterMap fun c => ((processCampaign fetch c).2).map fun u => (c.id, u))

/-- Apply one persisted `CampaignUpdate` to a stored campaign document
(Firestore `update`: partial field merge). -/
def applyUpdate (c : Campaign) (u : CampaignUpdate) : Campaign :=
  { c with
    views := u.views,
    shares := u.shares,
    comments := u.comments,
    likes := u.likes,
    budgetUsed := u.budgetUsed,
    isComplete := u.isComplete.getD c.isComplete,
    videos := u.videos.getD c.videos }

/-- Apply a list of writes to the stored campaign collection: each write
targets the documents whose id matches. -/
def applyWrites (cs : List Campaign) (ws : List (String × CampaignUpdate)) : List Campaign :=
  ws.foldl (fun acc w => acc.map fun c => if c.id = w.1 then applyUpdate c w.2 else c) cs

/-- Reason strings attached to `unpaidVideos` entries by
`calculatePendingCampaignPayments`.  Source texts: `notApproved` is
"Status was not \x27approved\x27", `alreadyPaid` is
"Video has already been marked as paid", `zeroEarnings` is
"The video has earned $0.00". -/
inductive NoPaymentReason
  | notApproved
  | alreadyPaid
  | zeroEarnings
deriving DecidableEq

/-- One `unpaidVideos` entry. -/
structure UnpaidVideo where
  payeeId : String
  reasonNoPaymentSent : NoPaymentReason
  video : Video
deriving DecidableEq

/-- One value of the `userPayoutData` object, i.e. one pending payment per
creator, after the user-document merge (which contributes
`paymentEmail`). -/
structure PayoutAttempt where
  payeeId : String
  amountOwed : ℚ
  videos : List Video
  paymentEmail : Option String := none
deriving DecidableEq

/-- A user document, reduced to the field the payout path consumes. -/
structure UserDoc where
  paymentEmail : String
deriving DecidableEq

/-- Accumulate one payable video into `userPayoutData`: if an entry for the
author already exists it is updated in place (JS object key update keeps
its position), otherwise a new entry is appended (new key at the end of
insertion order). -/
def addVideoToPayout : List PayoutAttempt → Video → List PayoutAttempt
  | [], v => [⟨v.author_id, v.earnings, [v], none⟩]
  | a :: rest, v =>
    if a.payeeId = v.author_id then
      { a with amountOwed := a.amountOwed + v.earnings, videos := a.videos ++ [v] } :: rest
    else
      a :: addVideoToPayout rest v

/-- The body of the `videos.forEach` classifier of part_006
`calculatePendingCampaignPayments`, folded left over the campaign's
videos: first matching guard wins, otherwise the video is accumulated. -/
def payoutStep (acc : List PayoutAttempt × List UnpaidVideo) (video : Video) :
    List PayoutAttempt × List UnpaidVideo :=
  if video.status ≠ "approved" then
    (acc.1, acc.2 ++ [⟨video.author_id, .notApproved, video⟩])
  else if video.hasBeenPaid then
    (acc.1, acc.2 ++ [⟨video.author_id, .alreadyPaid, video⟩])
  else if video.earnings ≤ 0 then
    (acc.1, acc.2 ++ [⟨video.author_id, .zeroEarnings, video⟩])
  else
    (addVideoToPayout acc.1 video, acc.2)

/-- The value returned by `calculatePendingCampaignPayments`. -/
structure PaymentsResult where
  pendingPayments : List PayoutAttempt
  unpaidVideos : List UnpaidVideo
deriving DecidableEq

/-- part_006 `calculatePendingCampaignPayments(campaign)`.  `users` is the
user-collection read oracle; for each payout entry whose user document
exists, the document's fields are merged in (modelled as attaching
`paymentEmail`). -/
def calculatePendingCampaignPayments (users : String → Option UserDoc)
    (campaign : Campaign) : PaymentsResult :=
  let folded := campaign.videos.foldl payoutStep ([], [])
  { pendingPayments :=
      folded.1.map fun a =>
        { a with paymentEmail := (users a.payeeId).map UserDoc.paymentEmail },
    unpaidVideos := folded.2 }

/-- Shape of the PayPal payouts response as part_006 inspects it:
`!payoutResult`, `!payoutResult.batch_header`, or
`!payoutResult.batch_header.payout_batch_id` (empty id is falsy). -/
inductive PayPalResult
  | noResponse
  | noBatchHeader
  | withBatchId (id : String)
deriving DecidableEq

/-- The response-verification predicate of part_006 `payCreator`: a payout
counts as confirmed only with a batch header carrying a non-empty
`payout_batch_id`. -/
def validPayout : PayPalResult → Bool
  | .withBatchId id => !(id = "")
  | _ => false

/-- Externally visible steps taken by `payCreator`, in program order:
the PayPal call itself, the transaction-collection insert, the
batched `hasBeenPaid` update, and the receipt append. -/
inductive PayEvent
  | externalPayout (payeeId : String) (amount : ℚ)
  | addTransaction (targetUserId status : String) (amount : ℚ) (paymentReference : String)
  | markVideosPaid (videoIds : List String)
  | addReceipt (payeeId : String)
deriving DecidableEq

/-- Discriminator: is this event the insert of a transaction with status
"pending"? -/
def isPendingTransaction : PayEvent → Bool
  | .addTransaction _ s _ _ => s = "pending"
  | _ => false

/-- part_006 `payCreator` over `payments.pendingPayments`, as the trace of
events it performs plus its outcome (`true` = returned `{success: true}`,
`false` = threw).  `paypal` is the payouts-API oracle, keyed by the payee.
Per payment: skip when `amountOwed <= 0`; call PayPal; on an unverifiable
response throw (the inner catch rethrows, aborting the whole loop); on a
verified response insert a transaction with status "completed" and the
batch id as `paymentReference`, commit the batched video updates, append
the receipt, and move to the next payment. -/
def payCreatorLoop (paypal : String → PayPalResult) :
    List PayoutAttempt → List PayEvent × Bool
  | [] => ([], true)
  | p :: rest =>
    if p.amountOwed ≤ 0 then payCreatorLoop paypal rest
    else
      match paypal p.payeeId with
      | .withBatchId id =>
        if id = "" then ([.externalPayout p.payeeId p.amountOwed], false)
        else
          (.externalPayout p.payeeId p.amountOwed ::
           .addTransaction p.payeeId "completed" p.amountOwed id ::
           .markVideosPaid (p.videos.map Video.id) ::
           .addReceipt p.payeeId ::
           (payCreatorLoop paypal rest).1,
           (payCreatorLoop paypal rest).2)
      | _ => ([.externalPayout p.payeeId p.amountOwed], false)

/-- A transaction document, reduced to the fields the claims mention. -/
structure Transaction where
  targetUserId : String
  status : String
  amount : ℚ
  paymentReference : String
deriving DecidableEq

/-- The durable state touched by the reconciliation engine for one
campaign: the campaign document's `videos` array, the documents of the
`campaigns/{id}/videos` subcollection (id paired with its `hasBeenPaid`
field), the `transactions` collection, and the campaign's receipts. -/
structure Db where
  campaignVideos : List Video
  videoSubcollection : List (String × Bool)
  transactions : List Transaction
  receipts : List String
deriving DecidableEq

/-- Upsert `hasBeenPaid := true` for one document id of the videos
subcollection. -/
def upsertPaid : List (String × Bool) → String → List (String × Bool)
  | [], i => [(i, true)]
  | (k, b) :: rest, i =>
    if k = i then (k, true) :: rest else (k, b) :: upsertPaid rest i

/-- Effect of `batch.update(videoRef, {hasBeenPaid: true, ...})` followed by
`batch.commit()`.  The `videoRef`s of part_006 point into the
`campaigns/{id}/videos` subcollection — NOT into the campaign document's
`videos` array, which is where submissions are actually stored.  (A real
Firestore `update` would even fail on the missing subcollection documents;
the model is generous to the source and lets the write succeed as an
upsert.  The campaign document is untouched either way.) -/
def markPaid (sub : List (String × Bool)) (ids : List String) : List (String × Bool) :=
  ids.foldl upsertPaid sub

/-- Apply one `payCreator` event to the durable state. -/
def applyEvent (db : Db) : PayEvent → Db
  | .externalPayout _ _ => db
  | .addTransaction u s a r => { db with transactions := db.transactions ++ [⟨u, s, a, r⟩] }
  | .markVideosPaid ids => { db with videoSubcollection := markPaid db.videoSubcollection ids }
  | .addReceipt p => { db with receipts := db.receipts ++ [p] }

/-- Apply a `payCreator` trace to the durable state, in order. -/
def applyTrace (db : Db) (evs : List PayEvent) : Db := evs.foldl applyEvent db

/-- One payment-reconciliation run for a campaign:
`calculatePendingCampaignPayments` over the freshly read campaign document
(its `videos` array), followed by `payCreator`.  Returns the resulting
durable state, the event trace, and `payCreator`'s outcome. -/
def reconcile (users : String → Option UserDoc) (paypal : String → PayPalResult)
    (base : Campaign) (db : Db) : Db × List PayEvent × Bool :=
  let pays := calculatePendingCampaignPayments users { base with videos := db.campaignVideos }
  let run := payCreatorLoop paypal pays.pendingPayments
  (applyTrace db run.1, run.1, run.2)

/-! Concrete fixtures used by the counterexamples and witnesses. -/

/-- An approved, unpaid submission that has earned $25. -/
def vSub : Video :=
  { id := "v1", url := "url-v1", author_id := "u1", status := "approved",
    hasBeenPaid := false, views := 100000, earnings := 25 }

/-- The same submission already marked as paid (in the campaign's `videos`
array), still approved, with recorded earnings $25. -/
def vPaid : Video :=
  { id := "v2", url := "url-v2", author_id := "u1", status := "approved",
    hasBeenPaid := true, views := 100000, earnings := 25 }

/-- User collection holding the creator `u1` with a payout email. -/
def usersEx : String → Option UserDoc :=
  fun i => if i = "u1" then some ⟨"creator@example.com"⟩ else none

/-- Payouts API that always confirms with batch id "B1". -/
def paypalOk : String → PayPalResult := fun _ => .withBatchId "B1"

/-- Payouts API that returns HTTP 200 with an empty body (no batch
header). -/
def paypalNoHdr : String → PayPalResult := fun _ => .noBatchHeader

/-- Durable state holding one approved unpaid $25 submission in the
campaign document's `videos` array; empty subcollection, no transactions,
no receipts. -/
def dbEx : Db :=
  { campaignVideos := [vSub], videoSubcollection := [], transactions := [], receipts := [] }

/-- Campaign metadata for the reconciliation runs (its `videos` array is
read from `dbEx` at each run). -/
def campPayEx : Campaign := { id := "c1", ratePerMillion := 250 }

/-- First reconciliation run on the fresh state. -/
def run1 : Db × List PayEvent × Bool := reconcile usersEx paypalOk campPayEx dbEx

/-- Second reconciliation run, on the state left by the first run. -/
def run2 : Db × List PayEvent × Bool := reconcile usersEx paypalOk campPayEx run1.1

/-- The `pendingPayments` list produced for `dbEx`'s single submission. -/
def ps1 : List PayoutAttempt := [⟨"u1", 25, [vSub], some "creator@example.com"⟩]

/-- Metadata oracle that reports zero views (and zero everything) for
every URL. -/
def fetchZeroViews : String → Option TikTokMetrics := fun _ => some {}

/-- Metadata oracle that reports 100000 views for every URL. -/
def fetch100k : String → Option TikTokMetrics := fun _ => some { views := 100000 }

/-- Metadata oracle that fails for the URL "urlA2" and reports 5 views
everywhere else. -/
def fetchFailA2 : String → Option TikTokMetrics :=
  fun u => if u = "urlA2" then none else some { views := 5 }

/-- A non-complete campaign whose only submission is already paid. -/
def campPaidEx : Campaign := { id := "c2", ratePerMillion := 1000, videos := [vPaid] }

/-- Campaign "A": two videos, the second of which has the failing URL. -/
def campA : Campaign :=
  { id := "A", ratePerMillion := 1000,
    videos := [{ id := "a1", url := "urlA1", author_id := "u1", status := "approved" },
               { id := "a2", url := "urlA2", author_id := "u2" }] }

/-- Campaign "B": one video with a working URL. -/
def campB : Campaign :=
  { id := "B", ratePerMillion := 1000,
    videos := [{ id := "b1", url := "urlB1", author_id := "u3" }] }

/-- A campaign already marked complete, with stored metrics. -/
def campDone : Campaign :=
  { id := "D", isComplete := true, ratePerMillion := 1000, views := 7, budgetUsed := 3,
    videos := [vSub] }

/-- Campaign with a $50 budget that the refreshed metrics will exhaust. -/
def campBud : Campaign :=
  { id := "E", budget := some 50, ratePerMillion := 1000,
    videos := [{ id := "e1", url := "urlE1", author_id := "u1" }] }

/-- `campBud`'s single video after a refresh reporting 100000 views. -/
def vBudRefreshed : Video :=
  { id := "e1", url := "urlE1", author_id := "u1", views := 100000, earnings := 100 }

/-- The document update `updateCampaignMetrics` writes for `campBud` under
`fetch100k`: 100000 total views, budgetUsed 100 ≥ budget 50, hence
`isComplete = true`. -/
def updBudEx : CampaignUpdate := ⟨100000, 0, 0, 0, 100, some true, some [vBudRefreshed]⟩

/-- `campPaidEx`'s already-paid video after a refresh reporting zero views:
its earnings are recomputed to 0, the recorded $25 is lost. -/
def vPaidRefreshed : Video :=
  { id := "v2", url := "url-v2", author_id := "u1", status := "approved",
    hasBeenPaid := true, views := 0, earnings := 0 }

/-- The document update `updateCampaignMetrics` writes for `campPaidEx`
under `fetchZeroViews`. -/
def updPaidEx : CampaignUpdate := ⟨0, 0, 0, 0, 0, some false, some [vPaidRefreshed]⟩

/-! Theorems. -/

/-- The source's `Number(x.toFixed(2))` agrees with the specification's
half-up two-decimal rounding. -/
theorem toFixed2_eq_round2 (x : ℚ) : toFixed2 x = round2 x := by
  unfold toFixed2 round2
  rw [mul_comm]

/-- C5: for `v ≥ 0` and `r ≥ 0`, `calculateEarnings` with no cap returns
`round2(r / 1_000_000 * v)`, and with a nonzero cap set it returns
`min(cap, round2(r / 1_000_000 * v))`; rate 1000, cap 50, views 100000
yields 50.  (A present cap equal to 0 is falsy in the source and does not
cap — see the counterexample — which is the one amendment to the claim.) -/
theorem calculateEarnings_formula_min_cap (camp : Campaign) (v : ℚ)
    (hr : 0 ≤ camp.ratePerMillion) (hv : 0 ≤ v) :
    (camp.maxCreatorEarningsPerPost = none →
      calculateEarnings camp v = round2 (camp.ratePerMillion / 1000000 * v)) ∧
    (∀ c : ℚ, c ≠ 0 → camp.maxCreatorEarningsPerPost = some c →
      calculateEarnings camp v = min c (round2 (camp.ratePerMillion / 1000000 * v))) ∧
    calculateEarnings campCapEx 100000 = 50 := by
  refine ⟨?_, ?_, ?_⟩
  · intro h
    simp [calculateEarnings, h, toFixed2_eq_round2]
  · intro c hc h
    simp only [calculateEarnings, h, toFixed2_eq_round2]
    split_ifs with hif
    · exact (min_eq_left hif.2.le).symm
    · have hle : ¬ c < round2 (camp.ratePerMillion / 1000000 * v) := fun hlt => hif ⟨hc, hlt⟩
      exact (min_eq_right (le_of_not_lt hle)).symm
  · norm_num [calculateEarnings, campCapEx, toFixed2, Int.floor_eq_iff]

/-- C5 witness: the theorem applied to the cap-enforcement scenario. -/
theorem calculateEarnings_formula_min_cap_witness :
    (0 ≤ campCapEx.ratePerMillion) ∧ (0 ≤ (100000 : ℚ)) ∧
    calculateEarnings campCapEx 100000 =
      min 50 (round2 (campCapEx.ratePerMillion / 1000000 * 100000)) := by
  refine ⟨by norm_num [campCapEx], by norm_num, ?_⟩
  exact (calculateEarnings_formula_min_cap campCapEx 100000 (by norm_num [campCapEx])
    (by norm_num)).2.1 50 (by norm_num) rfl

/-- C5 counterexample: with the cap field present but equal to 0 the
source returns the uncapped amount (JS truthiness: `0 &&` short-circuits),
not `min(cap, round2(...))` as the claim states for every set cap. -/
theorem calculateEarnings_zero_cap_cex :
    campZeroCap.maxCreatorEarningsPerPost = some 0 ∧
    calculateEarnings campZeroCap 100000 ≠
      min 0 (round2 (campZeroCap.ratePerMillion / 1000000 * 100000)) := by
  refine ⟨rfl, ?_⟩
  norm_num [calculateEarnings, campZeroCap, toFixed2, round2, Int.floor_eq_iff]

/-- C6 counterexample: a negative view count is not an input the source
guards against — with rate 1000000 per million and views −1 the function
returns −1, not 0 as the claim states. -/
theorem calculateEarnings_negative_views_cex :
    calculateEarnings campUnitRate (-1) = -1 ∧ calculateEarnings campUnitRate (-1) ≠ 0 := by
  constructor <;> norm_num [calculateEarnings, campUnitRate, toFixed2, Int.floor_eq_iff]

/-- C6 amended: `calculateEarnings` is a total function (it never throws),
but a negative view count is not zeroed: with a nonnegative rate the
result is the rounded pro-rata amount, which is ≤ 0 (and in general
nonzero, see the counterexample). -/
theorem calculateEarnings_negative_views_nonpositive (camp : Campaign) (v : ℚ)
    (hr : 0 ≤ camp.ratePerMillion) (hv : v < 0) :
    calculateEarnings camp v ≤ 0 := by
  have hx : camp.ratePerMillion / 1000000 * v ≤ 0 :=
    mul_nonpos_of_nonneg_of_nonpos (div_nonneg hr (by norm_num)) hv.le
  have hamt : toFixed2 (camp.ratePerMillion / 1000000 * v) ≤ 0 := by
    unfold toFixed2
    have h2 : camp.ratePerMillion / 1000000 * v * 100 + 1 / 2 ≤ (1 : ℚ) / 2 := by
      have := mul_nonpos_of_nonpos_of_nonneg hx (by norm_num : (0 : ℚ) ≤ 100)
      linarith
    have h1 : (⌊camp.ratePerMillion / 1000000 * v * 100 + 1 / 2⌋ : ℤ) ≤ 0 := by
      calc (⌊camp.ratePerMillion / 1000000 * v * 100 + 1 / 2⌋ : ℤ)
          ≤ ⌊(1 : ℚ) / 2⌋ := Int.floor_le_floor h2
        _ = 0 := by norm_num [Int.floor_eq_iff]
    have h3 : ((⌊camp.ratePerMillion / 1000000 * v * 100 + 1 / 2⌋ : ℤ) : ℚ) ≤ 0 := by
      exact_mod_cast h1
    exact div_nonpos_of_nonpos_of_nonneg h3 (by norm_num)
  simp only [calculateEarnings]
  cases hcap : camp.maxCreatorEarningsPerPost with
  | none => exact hamt
  | some c =>
    dsimp only
    split_ifs with hif
    · exact (hif.2.le.trans hamt)
    · exact hamt

/-- C6 witness: the amended theorem applied at the concrete negative
input. -/
theorem calculateEarnings_negative_views_nonpositive_witness :
    (0 ≤ campUnitRate.ratePerMillion) ∧ ((-1 : ℚ) < 0) ∧
    calculateEarnings campUnitRate (-1) ≤ 0 :=
  ⟨by norm_num [campUnitRate], by norm_num,
   calculateEarnings_negative_views_nonpositive campUnitRate (-1)
     (by norm_num [campUnitRate]) (by norm_num)⟩

/-- C10 counterexample: a campaign whose `budget` field is present with
value 0 satisfies the claim's predicate ("budget is set and
budgetUsed >= budget") but `checkCampaignCompletionCriteria` returns
`false`: the source's `campaign.budget &&` guard treats a zero budget as
unset. -/
theorem checkCampaignCompletionCriteria_zero_budget_cex :
    specCompletionCriteria campZeroBudget ∧
    checkCampaignCompletionCriteria campZeroBudget = false :=
  ⟨Or.inl ⟨0, rfl, le_refl 0⟩, by decide⟩

/-- C10 amended: `checkCampaignCompletionCriteria` is a pure predicate
returning `true` exactly when the budget is set to a nonzero value that
`budgetUsed` has reached, or `maxSubmissions` is set to a nonzero value
that the video count has reached; and `updateCampaignMetrics` evaluates it
on the freshly computed state (the written `budgetUsed` and the written
`videos`) and persists the result as `isComplete` inside the same
document update. -/
theorem checkCampaignCompletionCriteria_iff_and_persisted :
    (∀ camp : Campaign, checkCampaignCompletionCriteria camp = true ↔
      ((∃ b, camp.budget = some b ∧ b ≠ 0 ∧ b ≤ camp.budgetUsed) ∨
       (∃ m, camp.maxSubmissions = some m ∧ m ≠ 0 ∧ m ≤ camp.videos.length))) ∧
    (∀ (fetch : String → Option TikTokMetrics) (camp : Campaign) (u : CampaignUpdate),
      camp.isComplete = false → camp.videos.isEmpty = false →
      (processCampaign fetch camp).2 = some u →
      u.isComplete = some (checkCampaignCompletionCriteria
        { camp with budgetUsed := u.budgetUsed, videos := u.videos.getD camp.videos })) := by
  constructor
  · intro camp
    rcases hb : camp.budget with _ | b <;> rcases hm : camp.maxSubmissions with _ | m <;>
      simp [checkCampaignCompletionCriteria, hb, hm]
  · intro fetch camp u h1 h2 h3
    simp only [processCampaign, h1, h2, Bool.false_eq_true, if_false] at h3
    rcases hms : fetchAll fetch camp.videos with _ | ms <;> rw [hms] at h3
    · simp at h3
    · simp only at h3
      injection h3 with h4
      subst h4
      simp [h1]

/-- C10 witness: the theorem applied to `campBud`, whose refresh under
`fetch100k` exhausts the $50 budget, producing a write that carries
`isComplete = true`. -/
theorem checkCampaignCompletionCriteria_iff_and_persisted_witness :
    campBud.isComplete = false ∧ campBud.videos.isEmpty = false ∧
    (processCampaign fetch100k campBud).2 = some updBudEx ∧
    updBudEx.isComplete = some (checkCampaignCompletionCriteria
      { campBud with budgetUsed := updBudEx.budgetUsed,
                     videos := updBudEx.videos.getD campBud.videos }) := by
  have hsome : (processCampaign fetch100k campBud).2 = some updBudEx := by
    norm_num [processCampaign, fetch100k, campBud, fetchAll, refreshVideo, calculateEarnings,
      toFixed2, Int.floor_eq_iff, checkCampaignCompletionCriteria, mathRound, updBudEx,
      vBudRefreshed]
  exact ⟨rfl, rfl, hsome,
    checkCampaignCompletionCriteria_iff_and_persisted.2 fetch100k campBud updBudEx rfl rfl hsome⟩

/-- Every element of a `zipWith` is the image of some pair of inputs. -/
theorem exists_of_mem_zipWith {α β γ : Type} (f : α → β → γ) :
    ∀ (l₁ : List α) (l₂ : List β) (x : γ), x ∈ List.zipWith f l₁ l₂ → ∃ a b, x = f a b := by
  intro l₁
  induction l₁ with
  | nil => intro l₂ x hx; simp at hx
  | cons a l ih =>
    intro l₂ x hx
    cases l₂ with
    | nil => simp at hx
    | cons b l₂ =>
      rcases List.mem_cons.mp hx with h | h
      · exact ⟨a, b, h⟩
      · exact ih l₂ x h

/-- C7 counterexample: `vPaid` has `hasBeenPaid = true` and recorded
earnings $25, its campaign is not complete; a metrics pass whose fresh
fetch reports 0 views writes earnings 0 for it — the previously recorded
value is not retained, contradicting the claim's `hasBeenPaid` freeze. -/
theorem updateCampaignMetrics_paid_video_recomputed_cex :
    vPaid.hasBeenPaid = true ∧ vPaid.earnings = 25 ∧ campPaidEx.isComplete = false ∧
    ((processCampaign fetchZeroViews campPaidEx).2.map fun u =>
      (u.videos.getD []).map Video.earnings) = some [0] ∧
    (0 : ℚ) ≠ 25 := by
  refine ⟨rfl, rfl, rfl, ?_, by norm_num⟩
  norm_num [processCampaign, fetchZeroViews, campPaidEx, fetchAll, refreshVideo, vPaid,
    calculateEarnings, toFixed2, Int.floor_eq_iff, checkCampaignCompletionCriteria, mathRound]

/-- C7 amended: a complete campaign is skipped entirely (no write, so
every stored field including each video's earnings is retained), and for a
non-complete campaign every video in the written update has its earnings
recomputed from the fresh view count and the campaign's rate/cap —
independently of `hasBeenPaid`, which does not freeze earnings. -/
theorem processCampaign_earnings_recomputed_unless_complete
    (fetch : String → Option TikTokMetrics) (c : Campaign) :
    (c.isComplete = true → (processCampaign fetch c).2 = none) ∧
    (∀ u vs, (processCampaign fetch c).2 = some u → u.videos = some vs →
      ∀ x ∈ vs, x.earnings = calculateEarnings c x.views) := by
  constructor
  · intro h; simp [processCampaign, h]
  · intro u vs h hv x hx
    rcases h1 : c.isComplete with _ | _
    · rcases h2 : c.videos.isEmpty with _ | _
      · simp only [processCampaign, h1, h2, Bool.false_eq_true, if_false] at h
        rcases hms : fetchAll fetch c.videos with _ | ms <;> rw [hms] at h
        · simp at h
        · simp only at h
          injection h with h4
          subst h4
          simp only at hv
          injection hv with h5
          subst h5
          obtain ⟨v, m, rfl⟩ := exists_of_mem_zipWith (refreshVideo c) c.videos ms x hx
          rfl
      · simp only [processCampaign, h1, h2, Bool.false_eq_true, if_false, if_true] at h
        injection h with h4
        subst h4
        simp at hv
    · simp [processCampaign, h1] at h

/-- C7 witness: the amended theorem applied to `campPaidEx` under
`fetchZeroViews` — the written earnings of the already-paid video equal
the recomputation from its fresh (zero) view count. -/
theorem processCampaign_earnings_recomputed_unless_complete_witness :
    (processCampaign fetchZeroViews campPaidEx).2 = some updPaidEx ∧
    updPaidEx.videos = some [vPaidRefreshed] ∧
    vPaidRefreshed ∈ [vPaidRefreshed] ∧
    vPaidRefreshed.earnings = calculateEarnings campPaidEx vPaidRefreshed.views := by
  have hsome : (processCampaign fetchZeroViews campPaidEx).2 = some updPaidEx := by
    norm_num [processCampaign, fetchZeroViews, campPaidEx, fetchAll, refreshVideo, vPaid,
      calculateEarnings, toFixed2, Int.floor_eq_iff, checkCampaignCompletionCriteria,
      mathRound, updPaidEx, vPaidRefreshed]
  refine ⟨hsome, rfl, List.mem_singleton_self _, ?_⟩
  exact (processCampaign_earnings_recomputed_unless_complete fetchZeroViews campPaidEx).2
    updPaidEx [vPaidRefreshed] hsome rfl vPaidRefreshed (List.mem_singleton_self _)

/-- `processCampaign` on a complete campaign: a skipped outcome and no
write. -/
theorem processCampaign_complete (fetch : String → Option TikTokMetrics) (c : Campaign)
    (hc : c.isComplete = true) :
    processCampaign fetch c = (⟨c.id, "skipped", "Campaign already complete"⟩, none) := by
  simp [processCampaign, hc]

/-- `applyUpdate` never changes a document's id. -/
theorem applyUpdate_id (c : Campaign) (u : CampaignUpdate) : (applyUpdate c u).id = c.id := rfl

/-- Unfolding `applyWrites` one write at a time. -/
theorem applyWrites_cons (cs : List Campaign) (w : String × CampaignUpdate)
    (ws : List (String × CampaignUpdate)) :
    applyWrites cs (w :: ws) =
      applyWrites (cs.map fun y => if y.id = w.1 then applyUpdate y w.2 else y) ws := rfl

/-- A campaign document none of whose writes target its id survives
`applyWrites` unchanged (it is still present in the stored collection). -/
theorem applyWrites_mem_of_ne (c : Campaign) :
    ∀ (ws : List (String × CampaignUpdate)) (cs : List Campaign),
      (∀ w ∈ ws, w.1 ≠ c.id) → c ∈ cs → c ∈ applyWrites cs ws := by
  intro ws
  induction ws with
  | nil => intro cs _ hm; exact hm
  | cons w ws ih =>
    intro cs hne hm
    have hstep : c ∈ cs.map fun x => if x.id = w.1 then applyUpdate x w.2 else x := by
      have : (if c.id = w.1 then applyUpdate c w.2 else c) = c := by
        rw [if_neg fun h => hne w (List.mem_cons_self w ws) h.symm]
      exact this ▸ List.mem_map_of_mem _ hm
    exact ih _ (fun w' hw' => hne w' (List.mem_cons_of_mem w hw')) hstep

/-- If no write targets id `i`, every document with id `i` surviving
`applyWrites` was already in the stored collection unchanged. -/
theorem applyWrites_untouched_id (i : String) :
    ∀ (ws : List (String × CampaignUpdate)) (cs : List Campaign),
      (∀ w ∈ ws, w.1 ≠ i) →
      ∀ x ∈ applyWrites cs ws, x.id = i → x ∈ cs := by
  intro ws
  induction ws with
  | nil => intro cs _ x hx _; exact hx
  | cons w ws ih =>
    intro cs hne x hx hxi
    rw [applyWrites_cons] at hx
    have hx' := ih (cs.map fun y => if y.id = w.1 then applyUpdate y w.2 else y)
      (fun w' hw' => hne w' (List.mem_cons_of_mem w hw')) x hx hxi
    obtain ⟨y, hy, hyx⟩ := List.mem_map.mp hx'
    by_cases hyw : y.id = w.1
    · rw [if_pos hyw] at hyx
      exfalso
      apply hne w (List.mem_cons_self w ws)
      rw [← hxi, ← hyx, applyUpdate_id, hyw]
    · rw [if_neg hyw] at hyx
      exact hyx ▸ hy

/-- C9: a campaign already marked complete is skipped by a metrics pass:
its `results` entry is the skipped outcome, no write of the pass targets
its document, and after applying all of the pass's writes the stored
document — every metric field included — is byte-for-byte unchanged. -/
theorem updateCampaignMetrics_complete_campaign_skipped
    (fetch : String → Option TikTokMetrics) (campaigns : List Campaign) (c : Campaign)
    (hmem : c ∈ campaigns) (hc : c.isComplete = true)
    (hnd : (campaigns.map Campaign.id).Nodup) :
    (⟨c.id, "skipped", "Campaign already complete"⟩ : CampaignResult)
      ∈ (updateCampaignMetrics fetch campaigns).1 ∧
    (∀ w ∈ (updateCampaignMetrics fetch campaigns).2, w.1 ≠ c.id) ∧
    c ∈ applyWrites campaigns (updateCampaignMetrics fetch campaigns).2 ∧
    (∀ x ∈ applyWrites campaigns (updateCampaignMetrics fetch campaigns).2,
      x.id = c.id → x = c) := by
  have hwr : ∀ w ∈ (updateCampaignMetrics fetch campaigns).2, w.1 ≠ c.id := by
    intro w hw
    obtain ⟨c', hc', hfc'⟩ := List.mem_filterMap.mp hw
    rcases hu : (processCampaign fetch c').2 with _ | u
    · rw [hu] at hfc'; exact absurd hfc' (Option.noConfusion ·)
    · rw [hu] at hfc'
      injection hfc' with hfc2
      intro hid
      have hcid : c'.id = c.id := by rw [← hfc2] at hid; exact hid
      have : c' = c := List.inj_on_of_nodup_map hnd hc' hmem hcid
      subst this
      rw [processCampaign_complete fetch c' hc] at hu
      exact Option.noConfusion hu
  refine ⟨?_, hwr, applyWrites_mem_of_ne c _ campaigns hwr hmem, ?_⟩
  · have : (processCampaign fetch c).1 = ⟨c.id, "skipped", "Campaign already complete"⟩ := by
      rw [processCampaign_complete fetch c hc]
    exact this ▸ List.mem_map_of_mem _ hmem
  · intro x hx hxi
    have hxcs := applyWrites_untouched_id c.id _ campaigns hwr x hx hxi
    have : Campaign.id x = Campaign.id c := hxi
    exact List.inj_on_of_nodup_map hnd hxcs hmem this

/-- C9 witness: the theorem applied to a batch holding the complete
campaign `campDone` and the active campaign `campB`. -/
theorem updateCampaignMetrics_complete_campaign_skipped_witness :
    campDone ∈ [campDone, campB] ∧ campDone.isComplete = true ∧
    (([campDone, campB].map Campaign.id).Nodup) ∧
    (⟨"D", "skipped", "Campaign already complete"⟩ : CampaignResult)
      ∈ (updateCampaignMetrics fetchFailA2 [campDone, campB]).1 := by
  refine ⟨by decide, rfl, by decide, ?_⟩
  exact (updateCampaignMetrics_complete_campaign_skipped fetchFailA2 [campDone, campB]
    campDone (by decide) rfl (by decide)).1

/-- C8 counterexample: in a batch of campaign "A" (two videos, one of
whose metadata fetches fails) and campaign "B" (healthy), the pass writes
only to "B" — nothing at all is persisted for "A", so the other video of
"A" does NOT get updated metrics as the claim states — the error entry is
the single per-campaign record for "A", and processing still reached
"B". -/
theorem updateCampaignMetrics_fetch_failure_aborts_campaign_cex :
    ((updateCampaignMetrics fetchFailA2 [campA, campB]).2.map Prod.fst) = ["B"] ∧
    (⟨"A", "error", "fetch failed"⟩ : CampaignResult)
      ∈ (updateCampaignMetrics fetchFailA2 [campA, campB]).1 := by
  constructor <;> decide

/-- C8 amended: a metadata-fetch failure for any video of a non-complete
campaign aborts that whole campaign's update — a single per-campaign error
entry is recorded, no write targets the campaign — while every other
campaign in the batch still receives its own outcome entry (processing
continues). -/
theorem updateCampaignMetrics_fetch_failure_error_entry
    (fetch : String → Option TikTokMetrics) (campaigns : List Campaign) (c : Campaign)
    (hmem : c ∈ campaigns) (hc : c.isComplete = false) (hv : c.videos.isEmpty = false)
    (hf : fetchAll fetch c.videos = none) :
    (⟨c.id, "error", "fetch failed"⟩ : CampaignResult)
      ∈ (updateCampaignMetrics fetch campaigns).1 ∧
    ((campaigns.map Campaign.id).Nodup →
      ∀ w ∈ (updateCampaignMetrics fetch campaigns).2, w.1 ≠ c.id) ∧
    (∀ c' ∈ campaigns, (processCampaign fetch c').1 ∈ (updateCampaignMetrics fetch campaigns).1) := by
  have hproc : processCampaign fetch c = (⟨c.id, "error", "fetch failed"⟩, none) := by
    simp [processCampaign, hc, hv, hf]
  refine ⟨?_, ?_, ?_⟩
  · have : (processCampaign fetch c).1 = ⟨c.id, "error", "fetch failed"⟩ := by rw [hproc]
    exact this ▸ List.mem_map_of_mem _ hmem
  · intro hnd w hw
    obtain ⟨c', hc', hfc'⟩ := List.mem_filterMap.mp hw
    rcases hu : (processCampaign fetch c').2 with _ | u
    · rw [hu] at hfc'; exact absurd hfc' (Option.noConfusion ·)
    · rw [hu] at hfc'
      injection hfc' with hfc2
      intro hid
      have hcid : c'.id = c.id := by rw [← hfc2] at hid; exact hid
      have : c' = c := List.inj_on_of_nodup_map hnd hc' hmem hcid
      subst this
      rw [hproc] at hu
      exact Option.noConfusion hu
  · intro c' hc'
    exact List.mem_map_of_mem _ hc'

/-- C8 witness: the amended theorem applied to the two-campaign batch. -/
theorem updateCampaignMetrics_fetch_failure_error_entry_witness :
    campA ∈ [campA, campB] ∧ campA.isComplete = false ∧
    campA.videos.isEmpty = false ∧ fetchAll fetchFailA2 campA.videos = none ∧
    (⟨"A", "error", "fetch failed"⟩ : CampaignResult)
      ∈ (updateCampaignMetrics fetchFailA2 [campA, campB]).1 := by
  refine ⟨by decide, rfl, rfl, by decide, ?_⟩
  exact (updateCampaignMetrics_fetch_failure_error_entry fetchFailA2 [campA, campB] campA
    (by decide) rfl rfl (by decide)).1

/-- The payee ids of `userPayoutData` after accumulating one more payable
video: unchanged when the author already has an entry, otherwise the
author is appended. -/
theorem addVideoToPayout_payees (l : List PayoutAttempt) (v : Video) :
    (addVideoToPayout l v).map PayoutAttempt.payeeId =
      if v.author_id ∈ l.map PayoutAttempt.payeeId then l.map PayoutAttempt.payeeId
      else l.map PayoutAttempt.payeeId ++ [v.author_id] := by
  induction l with
  | nil => simp [addVideoToPayout]
  | cons a rest ih =>
    by_cases h : a.payeeId = v.author_id
    · simp [addVideoToPayout, h]
    · simp only [addVideoToPayout, if_neg h, List.map_cons, ih]
      by_cases h2 : v.author_id ∈ rest.map PayoutAttempt.payeeId
      · simp [h2, List.mem_cons]
      · have h3 : ¬ v.author_id ∈ a.payeeId :: rest.map PayoutAttempt.payeeId := by
          simp only [List.mem_cons, not_or]
          exact ⟨fun hh => h hh.symm, h2⟩
        simp [h2, h3]

/-- Accumulating a video preserves distinctness of payee ids. -/
theorem addVideoToPayout_nodup (l : List PayoutAttempt) (v : Video)
    (h : (l.map PayoutAttempt.payeeId).Nodup) :
    ((addVideoToPayout l v).map PayoutAttempt.payeeId).Nodup := by
  rw [addVideoToPayout_payees]
  split_ifs with hmem
  · exact h
  · simp [List.nodup_append, h, hmem]

/-- Accumulating a payable video preserves well-formedness of every entry:
`amountOwed` is the sum of the attached videos' earnings, and every
attached video is approved, unpaid, positive-earning and belongs to the
entry's payee. -/
theorem addVideoToPayout_wf (l : List PayoutAttempt) (v : Video)
    (hs : v.status = "approved") (hp : v.hasBeenPaid = false) (he : 0 < v.earnings)
    (h : ∀ a ∈ l, a.amountOwed = (a.videos.map Video.earnings).sum ∧
      ∀ w ∈ a.videos, w.status = "approved" ∧ w.hasBeenPaid = false ∧ 0 < w.earnings ∧
        w.author_id = a.payeeId) :
    ∀ a ∈ addVideoToPayout l v, a.amountOwed = (a.videos.map Video.earnings).sum ∧
      ∀ w ∈ a.videos, w.status = "approved" ∧ w.hasBeenPaid = false ∧ 0 < w.earnings ∧
        w.author_id = a.payeeId := by
  induction l with
  | nil =>
    intro a ha
    simp only [addVideoToPayout, List.mem_singleton] at ha
    subst ha
    refine ⟨by simp, ?_⟩
    intro w hw
    simp only [List.mem_singleton] at hw
    subst hw
    exact ⟨hs, hp, he, rfl⟩
  | cons b rest ih =>
    intro a ha
    by_cases hb : b.payeeId = v.author_id
    · simp only [addVideoToPayout, if_pos hb] at ha
      rcases List.mem_cons.mp ha with rfl | ha'
      · obtain ⟨hb1, hb2⟩ := h b (List.mem_cons_self b rest)
        constructor
        · simp [hb1]
        · intro w hw
          rcases List.mem_append.mp hw with hw' | hw'
          · exact hb2 w hw'
          · simp only [List.mem_singleton] at hw'
            subst hw'
            exact ⟨hs, hp, he, hb.symm⟩
      · exact h a (List.mem_cons_of_mem b ha')
    · simp only [addVideoToPayout, if_neg hb] at ha
      rcases List.mem_cons.mp ha with rfl | ha'
      · exact h a (List.mem_cons_self a rest)
      · exact ih (fun a' ha' => h a' (List.mem_cons_of_mem b ha')) a ha'

/-- After accumulating a video, some entry belongs to its author and
contains it. -/
theorem addVideoToPayout_mem_new (l : List PayoutAttempt) (v : Video) :
    ∃ a ∈ addVideoToPayout l v, a.payeeId = v.author_id ∧ v ∈ a.videos := by
  induction l with
  | nil =>
    refine ⟨⟨v.author_id, v.earnings, [v], none⟩, ?_, rfl, ?_⟩ <;>
      simp [addVideoToPayout]
  | cons b rest ih =>
    by_cases hb : b.payeeId = v.author_id
    · refine ⟨{ b with amountOwed := b.amountOwed + v.earnings, videos := b.videos ++ [v] },
        ?_, hb, ?_⟩
      · simp [addVideoToPayout, hb]
      · simp
    · obtain ⟨a, ha, h1, h2⟩ := ih
      refine ⟨a, ?_, h1, h2⟩
      simp only [addVideoToPayout, if_neg hb]
      exact List.mem_cons_of_mem b ha

/-- Accumulating a video never loses a previously attached video: the
owning entry survives (possibly extended). -/
theorem addVideoToPayout_mem_old (l : List PayoutAttempt) (v : Video) (a : PayoutAttempt)
    (w : Video) (ha : a ∈ l) (hw : w ∈ a.videos) :
    ∃ a' ∈ addVideoToPayout l v, a'.payeeId = a.payeeId ∧ w ∈ a'.videos := by
  induction l with
  | nil => simp at ha
  | cons b rest ih =>
    rcases List.mem_cons.mp ha with rfl | ha'
    · by_cases hb : a.payeeId = v.author_id
      · refine ⟨{ a with amountOwed := a.amountOwed + v.earnings, videos := a.videos ++ [v] },
          ?_, rfl, List.mem_append_left _ hw⟩
        simp [addVideoToPayout, hb]
      · refine ⟨a, ?_, rfl, hw⟩
        simp only [addVideoToPayout, if_neg hb]
        exact List.mem_cons_self a _
    · by_cases hb : b.payeeId = v.author_id
      · refine ⟨a, ?_, rfl, hw⟩
        simp only [addVideoToPayout, if_pos hb]
        exact List.mem_cons_of_mem _ ha'
      · obtain ⟨a', h1, h2, h3⟩ := ih ha'
        refine ⟨a', ?_, h2, h3⟩
        simp only [addVideoToPayout, if_neg hb]
        exact List.mem_cons_of_mem b h1

/-- Entries of the `unpaidVideos` accumulator survive the rest of the
fold. -/
theorem foldl_payoutStep_unpaid_mono (l : List Video) :
    ∀ (acc : List PayoutAttempt × List UnpaidVideo) (u : UnpaidVideo),
      u ∈ acc.2 → u ∈ (l.foldl payoutStep acc).2 := by
  induction l with
  | nil => intro acc u h; exact h
  | cons v l ih =>
    intro acc u h
    rw [List.foldl_cons]
    apply ih
    unfold payoutStep
    split_ifs <;> simp [h]

/-- A video attached to some payout entry stays attached to that payee's
entry for the rest of the fold. -/
theorem foldl_payoutStep_payout_mono (l : List Video) :
    ∀ (acc : List PayoutAttempt × List UnpaidVideo) (p : String) (w : Video),
      (∃ a ∈ acc.1, a.payeeId = p ∧ w ∈ a.videos) →
      ∃ a ∈ (l.foldl payoutStep acc).1, a.payeeId = p ∧ w ∈ a.videos := by
  induction l with
  | nil => intro acc p w h; exact h
  | cons v l ih =>
    intro acc p w h
    rw [List.foldl_cons]
    apply ih
    unfold payoutStep
    split_ifs <;> simp only
    · exact h
    · exact h
    · exact h
    · obtain ⟨a, ha, h1, h2⟩ := h
      obtain ⟨a', ha', h1', h2'⟩ := addVideoToPayout_mem_old acc.1 v a w ha h2
      exact ⟨a', ha', h1'.trans h1, h2'⟩

/-- The fold preserves well-formedness and payee distinctness of the
payout accumulator. -/
theorem foldl_payoutStep_inv (l : List Video) :
    ∀ (acc : List PayoutAttempt × List UnpaidVideo),
      (∀ a ∈ acc.1, a.amountOwed = (a.videos.map Video.earnings).sum ∧
        ∀ w ∈ a.videos, w.status = "approved" ∧ w.hasBeenPaid = false ∧ 0 < w.earnings ∧
          w.author_id = a.payeeId) →
      ((acc.1.map PayoutAttempt.payeeId).Nodup) →
      (∀ a ∈ (l.foldl payoutStep acc).1,
        a.amountOwed = (a.videos.map Video.earnings).sum ∧
        ∀ w ∈ a.videos, w.status = "approved" ∧ w.hasBeenPaid = false ∧ 0 < w.earnings ∧
          w.author_id = a.payeeId) ∧
      (((l.foldl payoutStep acc).1.map PayoutAttempt.payeeId).Nodup) := by
  induction l with
  | nil => intro acc h1 h2; exact ⟨h1, h2⟩
  | cons v l ih =>
    intro acc h1 h2
    rw [List.foldl_cons]
    unfold payoutStep
    split_ifs with g1 g2 g3
    · exact ih _ h1 h2
    · exact ih _ h1 h2
    · exact ih _ h1 h2
    · apply ih
      · exact addVideoToPayout_wf acc.1 v (not_not.mp g1) (Bool.not_eq_true _ ▸ g2)
          (lt_of_not_le g3) h1
      · exact addVideoToPayout_nodup acc.1 v h2

/-- First-match classification of each video of the fold's input. -/
theorem foldl_payoutStep_classify (l : List Video) :
    ∀ (acc : List PayoutAttempt × List UnpaidVideo) (v : Video), v ∈ l →
      ((v.status ≠ "approved" →
        (⟨v.author_id, .notApproved, v⟩ : UnpaidVideo) ∈ (l.foldl payoutStep acc).2) ∧
       (v.status = "approved" → v.hasBeenPaid = true →
        (⟨v.author_id, .alreadyPaid, v⟩ : UnpaidVideo) ∈ (l.foldl payoutStep acc).2) ∧
       (v.status = "approved" → v.hasBeenPaid = false → v.earnings ≤ 0 →
        (⟨v.author_id, .zeroEarnings, v⟩ : UnpaidVideo) ∈ (l.foldl payoutStep acc).2) ∧
       (v.status = "approved" → v.hasBeenPaid = false → 0 < v.earnings →
        ∃ a ∈ (l.foldl payoutStep acc).1, a.payeeId = v.author_id ∧ v ∈ a.videos)) := by
  induction l with
  | nil => intro acc v hv; simp at hv
  | cons x l ih =>
    intro acc v hv
    rcases List.mem_cons.mp hv with rfl | hv'
    · rw [List.foldl_cons]
      refine ⟨?_, ?_, ?_, ?_⟩
      · intro h
        apply foldl_payoutStep_unpaid_mono
        unfold payoutStep
        rw [if_pos h]
        simp
      · intro h1 h2
        apply foldl_payoutStep_unpaid_mono
        unfold payoutStep
        rw [if_neg (fun hc => hc h1), if_pos h2]
        simp
      · intro h1 h2 h3
        apply foldl_payoutStep_unpaid_mono
        unfold payoutStep
        rw [if_neg (fun hc => hc h1), if_neg (by simp [h2]), if_pos h3]
        simp
      · intro h1 h2 h3
        apply foldl_payoutStep_payout_mono
        unfold payoutStep
        rw [if_neg (fun hc => hc h1), if_neg (by simp [h2]), if_neg (not_le.mpr h3)]
        exact addVideoToPayout_mem_new acc.1 v
    · rw [List.foldl_cons]
      exact ih (payoutStep acc x) v hv'

/-- C3: part_006 `calculatePendingCampaignPayments` classifies every
submission by the first matching rule — not approved, already paid, zero
earnings, otherwise accumulated — and aggregates exactly one
`PayoutAttempt` per creator, whose `amountOwed` is the sum of its attached
videos' earnings; every attached video is approved, unpaid and
positive-earning, so a paid submission contributes nothing to any
attempt. -/
theorem calculatePendingCampaignPayments_filter_first_match
    (users : String → Option UserDoc) (campaign : Campaign) :
    (∀ v ∈ campaign.videos,
      (v.status ≠ "approved" → (⟨v.author_id, .notApproved, v⟩ : UnpaidVideo)
        ∈ (calculatePendingCampaignPayments users campaign).unpaidVideos) ∧
      (v.status = "approved" → v.hasBeenPaid = true →
        (⟨v.author_id, .alreadyPaid, v⟩ : UnpaidVideo)
        ∈ (calculatePendingCampaignPayments users campaign).unpaidVideos) ∧
      (v.status = "approved" → v.hasBeenPaid = false → v.earnings ≤ 0 →
        (⟨v.author_id, .zeroEarnings, v⟩ : UnpaidVideo)
        ∈ (calculatePendingCampaignPayments users campaign).unpaidVideos) ∧
      (v.status = "approved" → v.hasBeenPaid = false → 0 < v.earnings →
        ∃ a ∈ (calculatePendingCampaignPayments users campaign).pendingPayments,
          a.payeeId = v.author_id ∧ v ∈ a.videos)) ∧
    (∀ a ∈ (calculatePendingCampaignPayments users campaign).pendingPayments,
      a.amountOwed = (a.videos.map Video.earnings).sum ∧
      ∀ w ∈ a.videos, w.status = "approved" ∧ w.hasBeenPaid = false ∧ 0 < w.earnings ∧
        w.author_id = a.payeeId) ∧
    ((calculatePendingCampaignPayments users campaign).pendingPayments.map
      PayoutAttempt.payeeId).Nodup := by
  have hinv := foldl_payoutStep_inv campaign.videos ([], []) (by simp) (by simp)
  have hclass := foldl_payoutStep_classify campaign.videos ([], [])
  refine ⟨?_, ?_, ?_⟩
  · intro v hv
    obtain ⟨h1, h2, h3, h4⟩ := hclass v hv
    refine ⟨h1, h2, h3, ?_⟩
    intro ha hb hc
    obtain ⟨a, ha1, ha2, ha3⟩ := h4 ha hb hc
    exact ⟨{ a with paymentEmail := (users a.payeeId).map UserDoc.paymentEmail },
      List.mem_map_of_mem _ ha1, ha2, ha3⟩
  · intro a ha
    obtain ⟨a0, ha0, rfl⟩ := List.mem_map.mp ha
    exact hinv.1 a0 ha0
  · rw [show (calculatePendingCampaignPayments users campaign).pendingPayments.map
        PayoutAttempt.payeeId =
      (campaign.videos.foldl payoutStep ([], [])).1.map PayoutAttempt.payeeId from by
        simp only [calculatePendingCampaignPayments, List.map_map]; rfl]
    exact hinv.2

/-- C3 witness: the already-paid scenario — an approved, paid, $25
submission lands in `unpaidVideos` with the already-paid reason. -/
theorem calculatePendingCampaignPayments_filter_first_match_witness :
    vPaid ∈ campPaidEx.videos ∧ vPaid.status = "approved" ∧ vPaid.hasBeenPaid = true ∧
    vPaid.earnings = 25 ∧
    (⟨"u1", .alreadyPaid, vPaid⟩ : UnpaidVideo)
      ∈ (calculatePendingCampaignPayments usersEx campPaidEx).unpaidVideos := by
  refine ⟨by decide, rfl, rfl, rfl, ?_⟩
  exact ((calculatePendingCampaignPayments_filter_first_match usersEx campPaidEx).1
    vPaid (by decide)).2.1 rfl rfl

/-- A nonempty `payCreator` trace always starts with an external payout
call. -/
theorem payCreatorLoop_first (paypal : String → PayPalResult) (ps : List PayoutAttempt) :
    ((payCreatorLoop paypal ps).1).get? 0 = none ∨
    ∃ u a, ((payCreatorLoop paypal ps).1).get? 0 = some (.externalPayout u a) := by
  induction ps with
  | nil => left; rfl
  | cons p rest ih =>
    by_cases hle : p.amountOwed ≤ 0
    · simpa [payCreatorLoop, hle] using ih
    · cases hpp : paypal p.payeeId with
      | noResponse => right; exact ⟨p.payeeId, p.amountOwed, by simp [payCreatorLoop, hle, hpp]⟩
      | noBatchHeader => right; exact ⟨p.payeeId, p.amountOwed, by simp [payCreatorLoop, hle, hpp]⟩
      | withBatchId id =>
        by_cases hid : id = ""
        · right; exact ⟨p.payeeId, p.amountOwed, by simp [payCreatorLoop, hle, hpp, hid]⟩
        · right; exact ⟨p.payeeId, p.amountOwed, by simp [payCreatorLoop, hle, hpp, hid]⟩

/-- C2 amended: part_006 `payCreator` never writes a pending transaction.
Every transaction insert in its trace carries status "completed" and a
non-empty batch reference, and is immediately preceded by the external
payout call of the same creator for the same amount — the external call
comes first, the transaction record second. -/
theorem payCreator_transaction_completed_after_payout
    (paypal : String → PayPalResult) (ps : List PayoutAttempt) :
    ∀ (n : ℕ) (u s : String) (a : ℚ) (ref : String),
      ((payCreatorLoop paypal ps).1).get? n = some (.addTransaction u s a ref) →
      s = "completed" ∧ ref ≠ "" ∧
      ((payCreatorLoop paypal ps).1).get? (n - 1) = some (.externalPayout u a) := by
  induction ps with
  | nil => intro n u s a ref h; simp [payCreatorLoop] at h
  | cons p rest ih =>
    intro n u s a ref h
    by_cases hle : p.amountOwed ≤ 0
    · rw [show payCreatorLoop paypal (p :: rest) = payCreatorLoop paypal rest from by
        simp [payCreatorLoop, hle]] at h ⊢
      exact ih n u s a ref h
    · cases hpp : paypal p.payeeId with
      | noResponse =>
        rw [show (payCreatorLoop paypal (p :: rest)).1 =
            [.externalPayout p.payeeId p.amountOwed] from by
          simp [payCreatorLoop, hle, hpp]] at h
        rcases n with _ | n
        · exact absurd h (by simp)
        · exact absurd h (by simp)
      | noBatchHeader =>
        rw [show (payCreatorLoop paypal (p :: rest)).1 =
            [.externalPayout p.payeeId p.amountOwed] from by
          simp [payCreatorLoop, hle, hpp]] at h
        rcases n with _ | n
        · exact absurd h (by simp)
        · exact absurd h (by simp)
      | withBatchId id =>
        by_cases hid : id = ""
        · rw [show (payCreatorLoop paypal (p :: rest)).1 =
              [.externalPayout p.payeeId p.amountOwed] from by
            simp [payCreatorLoop, hle, hpp, hid]] at h
          rcases n with _ | n
          · exact absurd h (by simp)
          · exact absurd h (by simp)
        · rw [show (payCreatorLoop paypal (p :: rest)).1 =
              .externalPayout p.payeeId p.amountOwed ::
              .addTransaction p.payeeId "completed" p.amountOwed id ::
              .markVideosPaid (p.videos.map Video.id) ::
              .addReceipt p.payeeId :: (payCreatorLoop paypal rest).1 from by
            simp [payCreatorLoop, hle, hpp, hid]] at h ⊢
          rcases n with _ | _ | _ | _ | m
          · exact absurd h (by simp)
          · simp only [List.get?] at h
            injection h with h1
            injection h1 with e1 e2 e3 e4
            subst e1; subst e2; subst e3; subst e4
            exact ⟨rfl, hid, rfl⟩
          · exact absurd h (by simp)
          · exact absurd h (by simp)
          · have h' : ((payCreatorLoop paypal rest).1).get? m =
                some (.addTransaction u s a ref) := h
            obtain ⟨hs, href, hprev⟩ := ih m u s a ref h'
            refine ⟨hs, href, ?_⟩
            rcases m with _ | k
            · rw [hprev] at h'
              exact absurd h' (by simp)
            · exact hprev

/-- C2 witness: the ordering theorem applied to the concrete
single-creator run — the transaction insert sits at index 1, right after
the external payout call at index 0. -/
theorem payCreator_transaction_completed_after_payout_witness :
    ((payCreatorLoop paypalOk ps1).1).get? 1 =
      some (.addTransaction "u1" "completed" 25 "B1") ∧
    ((payCreatorLoop paypalOk ps1).1).get? 0 = some (.externalPayout "u1" 25) := by
  refine ⟨by decide, ?_⟩
  exact (payCreator_transaction_completed_after_payout paypalOk ps1 1 "u1" "completed" 25 "B1"
    (by decide)).2.2

/-- C2 counterexample: in a successful run the FIRST event is the
external payout call — no transaction of any kind, in particular none
with status "pending", exists before the money moves; the only
transaction insert happens afterwards with status "completed". -/
theorem payCreator_no_pending_transaction_cex :
    ((payCreatorLoop paypalOk ps1).1).get? 0 = some (.externalPayout "u1" 25) ∧
    ((payCreatorLoop paypalOk ps1).1).all (fun e => !(isPendingTransaction e)) = true ∧
    ((payCreatorLoop paypalOk ps1).1).get? 1 =
      some (.addTransaction "u1" "completed" 25 "B1") := by
  refine ⟨?_, ?_, ?_⟩ <;> decide

/-- C4 amended: when the payouts API never returns a verifiable
confirmation (missing/empty batch id), `payCreator` performs only the
external call attempts: the durable state is completely unchanged — no
transaction document is written at all (in particular none reaching
status "failed"), no video is marked `hasBeenPaid`, no receipt is
appended. -/
theorem payCreator_invalid_response_no_writes
    (paypal : String → PayPalResult) (ps : List PayoutAttempt) (db : Db)
    (h : ∀ p ∈ ps, validPayout (paypal p.payeeId) = false) :
    applyTrace db ((payCreatorLoop paypal ps).1) = db ∧
    (∀ e ∈ (payCreatorLoop paypal ps).1, ∃ u a, e = .externalPayout u a) := by
  induction ps with
  | nil => exact ⟨rfl, by intro e he; simp [payCreatorLoop] at he⟩
  | cons p rest ih =>
    by_cases hle : p.amountOwed ≤ 0
    · rw [show payCreatorLoop paypal (p :: rest) = payCreatorLoop paypal rest from by
        simp [payCreatorLoop, hle]]
      exact ih fun p' hp' => h p' (List.mem_cons_of_mem p hp')
    · cases hpp : paypal p.payeeId with
      | noResponse =>
        rw [show (payCreatorLoop paypal (p :: rest)).1 =
            [.externalPayout p.payeeId p.amountOwed] from by
          simp [payCreatorLoop, hle, hpp]]
        exact ⟨rfl, by intro e he; simp at he; exact ⟨p.payeeId, p.amountOwed, he⟩⟩
      | noBatchHeader =>
        rw [show (payCreatorLoop paypal (p :: rest)).1 =
            [.externalPayout p.payeeId p.amountOwed] from by
          simp [payCreatorLoop, hle, hpp]]
        exact ⟨rfl, by intro e he; simp at he; exact ⟨p.payeeId, p.amountOwed, he⟩⟩
      | withBatchId id =>
        have hid : id = "" := by
          have := h p (List.mem_cons_self p rest)
          rw [hpp] at this
          simpa [validPayout] using this
        rw [show (payCreatorLoop paypal (p :: rest)).1 =
            [.externalPayout p.payeeId p.amountOwed] from by
          simp [payCreatorLoop, hle, hpp, hid]]
        exact ⟨rfl, by intro e he; simp at he; exact ⟨p.payeeId, p.amountOwed, he⟩⟩

/-- C4 witness: the amended theorem applied to the HTTP-200-empty-body
oracle — the durable state with one unpaid submission is untouched. -/
theorem payCreator_invalid_response_no_writes_witness :
    validPayout (paypalNoHdr "u1") = false ∧
    applyTrace dbEx ((payCreatorLoop paypalNoHdr ps1).1) = dbEx := by
  refine ⟨rfl, ?_⟩
  exact (payCreator_invalid_response_no_writes paypalNoHdr ps1 dbEx (by decide)).1

/-- C4 counterexample: with the empty-body response the run is treated as
a failure and no submission is marked paid — as the claim states — but
the transactions collection stays EMPTY: no transaction record exists, so
none "ends in status failed" as the claim also states. -/
theorem payCreator_invalid_response_no_failed_transaction_cex :
    (payCreatorLoop paypalNoHdr ps1).2 = false ∧
    (applyTrace dbEx ((payCreatorLoop paypalNoHdr ps1).1)).transactions = [] ∧
    ((applyTrace dbEx ((payCreatorLoop paypalNoHdr ps1).1)).campaignVideos.map
      Video.hasBeenPaid) = [false] := by
  refine ⟨?_, ?_, ?_⟩ <;> decide

/-- C1, code bug: the first run's `payCreator` does "mark" the submission
paid — but in the `campaigns/{id}/videos` subcollection, while submissions
live in (and `calculatePendingCampaignPayments` reads) the campaign
document's `videos` array.  Re-reading the campaign for the second run
still shows `hasBeenPaid = false`, so the second run's filter puts
nothing in `unpaidVideos` and the same $25 external payout is sent
again: reconciliation run twice pays the submission twice. -/
theorem payCreator_marks_wrong_collection_double_pay :
    (PayEvent.markVideosPaid ["v1"] ∈ run1.2.1) ∧
    (run1.1).videoSubcollection = [("v1", true)] ∧
    ((run1.1).campaignVideos.map Video.hasBeenPaid) = [false] ∧
    (calculatePendingCampaignPayments usersEx
      { campPayEx with videos := (run1.1).campaignVideos }).unpaidVideos = [] ∧
    (PayEvent.externalPayout "u1" 25 ∈ run1.2.1) ∧
    (PayEvent.externalPayout "u1" 25 ∈ run2.2.1) := by
  refine ⟨?_, ?_, ?_, ?_, ?_, ?_⟩ <;> decide

end SketchMusic
